import Mathlib

set_option linter.unusedVariables false
set_option linter.unnecessarySeqFocus false

/-!
Shallow embedding of the Contract Analysis Platform
(`src/streamlit-app/app.py`) for verification of the
Definition-Usage Reconciliation Engine specification.

The analysis pass of the application (function `main`, lines 312-394)
receives four candidate lists produced by an external generative model
(`extract_definitions`, `find_usages`, `find_suggestions`,
`find_cross_references`) and converts each JSON record into a dataclass
instance.  JSON records are embedded as structures of optional fields;
`dict.get(key, default)` becomes `Option.getD`.  The `Classification(...)`
enum constructor, which raises `ValueError` on an unknown string, becomes
an `Except`-valued parse.
-/

namespace ContractApp

/-- Issue taxonomy, from `class IssueType(Enum)` (app.py lines 59-66). -/
inductive IssueType where
  | DUPLICATE
  | CASE_DRIFT
  | MISSING_DEFINITION
  | UNUSED_TERM
  | USE_BEFORE_DEFINE
  | CONFLICT
  | POTENTIAL_DEFINITION_NEEDED
  deriving DecidableEq

/-- Usage classification, from `class Classification(Enum)` (app.py lines 68-72). -/
inductive Classification where
  | DEFINED
  | UNDEFINED
  | ACRONYM
  | NOISE
  deriving DecidableEq

/-- Dataclass `Definition` (app.py lines 74-81). -/
structure Definition where
  term_raw : String
  term_canonical : String
  def_text : String
  paragraph_id : String
  is_inline : Bool
  issues : List IssueType
  deriving DecidableEq

/-- Dataclass `Usage` (app.py lines 83-92). -/
structure Usage where
  token : String
  canonical : Option String
  sentence : String
  paragraph_id : String
  classification : Classification
  def_locator : Option String
  is_case_drift : Bool
  issues : List IssueType
  deriving DecidableEq

/-- Dataclass `Suggestion` (app.py lines 94-99). -/
structure Suggestion where
  term : String
  paragraph_id : String
  sentence : String
  reasoning : String
  deriving DecidableEq

/-- Dataclass `CrossReference` (app.py lines 101-105). -/
structure CrossReference where
  token : String
  sentence : String
  paragraph_id : String
  deriving DecidableEq

/-- A raw definition candidate: one JSON record of the model response's
`definitions` array.  Fields are optional because the loop at app.py
lines 326-336 reads each with `def_data.get(key, default)`. -/
structure DefCandidate where
  term_raw : Option String
  term_canonical : Option String
  def_text : Option String
  paragraphId : Option String
  is_inline : Option Bool
  deriving DecidableEq

/-- A raw usage candidate: one JSON record of the `usages` array, read with
`usage_data.get` at app.py lines 344-355. -/
structure UsageCandidate where
  token : Option String
  canonical : Option String
  sentence : Option String
  paragraphId : Option String
  classification : Option String
  is_case_drift : Option Bool
  deriving DecidableEq

/-- A raw suggestion candidate (app.py lines 362-370). -/
structure SuggestionCandidate where
  term : Option String
  paragraphId : Option String
  sentence : Option String
  reasoning : Option String
  deriving DecidableEq

/-- A raw cross-reference candidate (app.py lines 377-384). -/
structure CrossRefCandidate where
  token : Option String
  sentence : Option String
  paragraphId : Option String
  deriving DecidableEq

/-- Construction of one `Definition` from a candidate record
(app.py lines 327-334): every missing field is defaulted
(`""` or `False`), and `issues` is initialized to the empty list. -/
def mkDefinition (d : DefCandidate) : Definition :=
  ⟨d.term_raw.getD "", d.term_canonical.getD "", d.def_text.getD "",
   d.paragraphId.getD "", d.is_inline.getD false, []⟩

/-- The `Classification(...)` enum constructor (app.py line 350): maps the
four valid value strings to the enum and raises `ValueError` otherwise. -/
def parseClassification (s : String) : Except String Classification :=
  if s = "Defined" then Except.ok Classification.DEFINED
  else if s = "Undefined" then Except.ok Classification.UNDEFINED
  else if s = "Acronym" then Except.ok Classification.ACRONYM
  else if s = "Noise" then Except.ok Classification.NOISE
  else Except.error s

/-- Construction of one `Usage` from a candidate record (app.py lines
345-354): `canonical` is read with no default (stays `None` when absent),
`classification` defaults to `"Undefined"` before the enum parse,
`def_locator` is the constant `None`, and `issues` is the empty list. -/
def mkUsage (u : UsageCandidate) : Except String Usage :=
  (parseClassification (u.classification.getD "Undefined")).map
    (fun c => ⟨u.token.getD "", u.canonical, u.sentence.getD "",
               u.paragraphId.getD "", c, none, u.is_case_drift.getD false, []⟩)

/-- Construction of one `Suggestion` (app.py lines 363-369). -/
def mkSuggestion (s : SuggestionCandidate) : Suggestion :=
  ⟨s.term.getD "", s.paragraphId.getD "", s.sentence.getD "", s.reasoning.getD ""⟩

/-- Construction of one `CrossReference` (app.py lines 378-383). -/
def mkCrossReference (c : CrossRefCandidate) : CrossReference :=
  ⟨c.token.getD "", c.sentence.getD "", c.paragraphId.getD ""⟩

/-- The definitions loop (app.py lines 324-335): every candidate becomes a
`Definition`; none is ever dropped. -/
def processDefinitions (dd : List DefCandidate) : List Definition :=
  dd.map mkDefinition

/-- `known_terms` (app.py lines 325, 336): the canonical term of every
processed definition, in order. -/
def knownTerms (dd : List DefCandidate) : List String :=
  (processDefinitions dd).map Definition.term_canonical

/-- The usages loop (app.py lines 343-355): candidates are processed in
order and the first invalid classification string aborts the whole pass
(uncaught `ValueError`). -/
def processUsages : List UsageCandidate → Except String (List Usage)
  | [] => Except.ok []
  | c :: t =>
    match mkUsage c, processUsages t with
    | Except.error e, _ => Except.error e
    | Except.ok _, Except.error e => Except.error e
    | Except.ok u, Except.ok us => Except.ok (u :: us)

/-- The suggestions loop (app.py lines 362-370). -/
def processSuggestions (sd : List SuggestionCandidate) : List Suggestion :=
  sd.map mkSuggestion

/-- The cross-references loop (app.py lines 377-384). -/
def processCrossReferences (cd : List CrossRefCandidate) : List CrossReference :=
  cd.map mkCrossReference

/-- The stored `analysis_results` dict (app.py lines 387-392). -/
structure AnalysisResults where
  definitions : List Definition
  usages : List Usage
  suggestions : List Suggestion
  cross_references : List CrossReference
  deriving DecidableEq

/-- The whole analysis pass (app.py lines 312-394) as a function of the
four candidate lists returned by the model: build the definitions, then
the usages (aborting on an invalid classification string), then the
suggestions and cross-references, and store the results. -/
def runAnalysis (dd : List DefCandidate) (ud : List UsageCandidate)
    (sd : List SuggestionCandidate) (cd : List CrossRefCandidate) :
    Except String AnalysisResults :=
  match processUsages ud with
  | Except.error e => Except.error e
  | Except.ok us =>
      Except.ok ⟨processDefinitions dd, us, processSuggestions sd,
                 processCrossReferences cd⟩

/-- The summary metrics of the results display (app.py lines 403-436):
definitions found, undefined-term count, suggestions, cross-references. -/
structure SummaryCounts where
  definitionsFound : Nat
  undefinedTerms : Nat
  suggestionsFound : Nat
  crossReferencesFound : Nat
  deriving DecidableEq

/-- `undefined_count` (app.py line 414): usages whose classification is
`UNDEFINED`. -/
def undefinedCount (r : AnalysisResults) : Nat :=
  (r.usages.filter
    (fun u => decide (u.classification = Classification.UNDEFINED))).length

/-- The four summary metrics computed from stored results
(app.py lines 403-436). -/
def summarize (r : AnalysisResults) : SummaryCounts :=
  ⟨r.definitions.length, undefinedCount r, r.suggestions.length,
   r.cross_references.length⟩

/-- The parsed JSON object a `call_api` attempt can return: the four
response arrays are read with `response.get(key, [])`
(app.py lines 163, 177, 191, 204). -/
structure ApiResponse where
  definitions : Option (List DefCandidate)
  usages : Option (List UsageCandidate)
  suggestions : Option (List SuggestionCandidate)
  references : Option (List CrossRefCandidate)

/-- Outcome of one `call_api` attempt (app.py lines 122-153): either a
parsed JSON object or an exception (network error, non-OK HTTP status,
JSON decode failure, ...), abstracted as a `String` error. -/
abbrev ApiOutcome := Except String ApiResponse

/-- `ContractAnalyzer.extract_definitions` (app.py lines 155-166): on any
exception from the API call the handler returns the empty list; otherwise
the `definitions` array (default `[]`). -/
def extract_definitions (text : String) (api : ApiOutcome) : List DefCandidate :=
  match api with
  | Except.error _ => []
  | Except.ok r => r.definitions.getD []

/-- `ContractAnalyzer.find_usages` (app.py lines 168-180). -/
def find_usages (text : String) (known_terms : List String)
    (api : ApiOutcome) : List UsageCandidate :=
  match api with
  | Except.error _ => []
  | Except.ok r => r.usages.getD []

/-- `ContractAnalyzer.find_suggestions` (app.py lines 182-194). -/
def find_suggestions (text : String) (known_terms : List String)
    (api : ApiOutcome) : List SuggestionCandidate :=
  match api with
  | Except.error _ => []
  | Except.ok r => r.suggestions.getD []

/-- `ContractAnalyzer.find_cross_references` (app.py lines 196-207). -/
def find_cross_references (text : String) (api : ApiOutcome) :
    List CrossRefCandidate :=
  match api with
  | Except.error _ => []
  | Except.ok r => r.references.getD []

/-- Modelled from the spec: whitespace recognition of the Canonicalizer
(section 4.1).  The repository contains no canonicalizer — the stub takes
`term_canonical` verbatim from the external model — so the component is
modelled from the specification's words.  Raw strings are embedded as
lists of Unicode codepoints (`Nat`); 32, 9, 10, 13 are space, tab,
newline, carriage return. -/
def isWsCp (n : Nat) : Bool :=
  decide (n = 32 ∨ n = 9 ∨ n = 10 ∨ n = 13)

/-- Modelled from the spec: case-folding of a single codepoint under the
default case-insensitive policy of section 4.1 (ASCII upper to lower). -/
def lowerCp (n : Nat) : Nat :=
  if 65 ≤ n ∧ n ≤ 90 then n + 32 else n

/-- Modelled from the spec: per-codepoint normalization — any whitespace
codepoint becomes a plain space, every other codepoint is case-folded. -/
def normCp (n : Nat) : Nat :=
  if isWsCp n then 32 else lowerCp n

/-- Modelled from the spec: the whitespace-separated words of the
normalized string, with empty fragments discarded (this realizes both
trimming and collapsing of internal whitespace). -/
def canonWords (l : List Nat) : List (List Nat) :=
  ((l.map normCp).splitOn 32).filter (fun w => !w.isEmpty)

/-- Modelled from the spec: `canonicalize(raw) -> CanonicalKey`
(section 4.1) — trim, collapse internal whitespace to single spaces, and
case-fold under the default case-insensitive policy.  The configurable
trailing-suffix set is taken empty, the specification fixing no default
for it.  The repository itself has no canonicalizer implementation. -/
def canonicalize (l : List Nat) : List Nat :=
  [32].intercalate (canonWords l)

/-- Modelled from the spec: the token set of a definition text, for the
token-set Jaccard similarity of section 4.3 (no similarity computation
exists in the repository) — the set of maximal space-free fragments of
the text's character list. -/
def tokenSet (s : String) : Finset (List Char) :=
  ((s.data.splitOn ' ').filter (fun w => !w.isEmpty)).toFinset

/-- Modelled from the spec: the definition texts `a` and `b` fall below
the default similarity threshold, i.e. their token-set Jaccard similarity
is strictly less than 0.85, stated over naturals as
`100 * card (A ∩ B) < 85 * card (A ∪ B)`. -/
def jaccardBelowThreshold (a b : String) : Bool :=
  decide (100 * ((tokenSet a) ∩ (tokenSet b)).card <
    85 * ((tokenSet a) ∪ (tokenSet b)).card)

/-- Failing input of claim C1: a usage candidate the model labels
`Defined` although the same run extracted no definition at all. -/
def c1_usage_candidate : UsageCandidate :=
  ⟨some "Agreement", some "agreement", some "This Agreement is binding",
   some "para-5", some "Defined", some false⟩

/-- Failing input of claim C2, first member of the duplicate group. -/
def c2_def1 : DefCandidate :=
  ⟨some "Agreement", some "agreement", some "means this contract",
   some "para-1", some false⟩

/-- Failing input of claim C2, second member: same canonical key,
materially different definition text (token sets are disjoint). -/
def c2_def2 : DefCandidate :=
  ⟨some "AGREEMENT", some "agreement",
   some "shall denote the 2024 master services framework",
   some "para-3", some false⟩

/-- Failing input of claim C3: the only definition of the key
`agreement`, in paragraph `para-5` (document-order rank 5). -/
def c3_def : DefCandidate :=
  ⟨some "Agreement", some "agreement", some "means this contract",
   some "para-5", some false⟩

/-- Failing input of claim C3: a `Defined` usage of the same key in
paragraph `para-0` (rank 0), before the defining paragraph. -/
def c3_usage : UsageCandidate :=
  ⟨some "Agreement", some "agreement", some "The Agreement governs the parties",
   some "para-0", some "Defined", some false⟩

/-- Failing input of claim C4: a definition whose canonical key is
resolved by zero usages in the run. -/
def c4_def : DefCandidate :=
  ⟨some "Affiliate", some "affiliate",
   some "means any entity controlled by a party", some "para-2", some false⟩

/-- Failing input of claim C7: a candidate record with every field
missing (in particular no term and no definition text). -/
def c7_malformed : DefCandidate :=
  ⟨none, none, none, none, none⟩

/-- Concrete usage candidate used by the witnesses of claims C8 and C9. -/
def w_usage_candidate : UsageCandidate :=
  ⟨some "Agreement", some "agreement", some "This Agreement is binding",
   some "para-1", some "Defined", some false⟩

/-- The usage the analysis pass builds from `w_usage_candidate`. -/
def w_usage : Usage :=
  ⟨"Agreement", some "agreement", "This Agreement is binding", "para-1",
   Classification.DEFINED, none, false, []⟩

/-- Concrete definition candidate used by the witness of claim C9. -/
def w_def_candidate : DefCandidate :=
  ⟨some "Agreement", some "agreement", some "means this contract",
   some "para-1", some false⟩

/-- The definition the analysis pass builds from `w_def_candidate`. -/
def w_def : Definition :=
  ⟨"Agreement", "agreement", "means this contract", "para-1", false, []⟩

/-- The stored results of the witness run of claims C8 and C9. -/
def w_results : AnalysisResults :=
  ⟨[w_def], [w_usage], [], []⟩

/-- A space codepoint is fixed by per-codepoint normalization. -/
theorem normCp_32 : normCp 32 = 32 := rfl

/-- Per-codepoint normalization is idempotent: whitespace is already sent
to the fixed point 32, and ASCII lowering lands outside the upper range. -/
theorem normCp_idem (n : Nat) : normCp (normCp n) = normCp n := by
  simp only [normCp, lowerCp, isWsCp]
  split_ifs <;> simp_all <;> omega

/-- A map whose function fixes every member of a list fixes the list. -/
theorem mapFixOfMem {f : Nat → Nat} :
    ∀ {l : List Nat}, (∀ y ∈ l, f y = y) → l.map f = l
  | [], _ => rfl
  | x :: t, h => by
    rw [List.map_cons, h x (List.mem_cons_self x t),
        mapFixOfMem (fun y hy => h y (List.mem_cons_of_mem _ hy))]

/-- Every element of every chunk produced by `splitOnP` comes from the
original list and does not satisfy the separator predicate. -/
theorem mem_of_mem_splitOnP {p : Nat → Bool} :
    ∀ {xs : List Nat} {w : List Nat}, w ∈ xs.splitOnP p →
      ∀ {y : Nat}, y ∈ w → y ∈ xs ∧ p y = false := by
  intro xs
  induction xs with
  | nil =>
    intro w hw y hy
    rw [List.splitOnP_nil] at hw
    simp only [List.mem_singleton] at hw
    subst hw
    simp at hy
  | cons x t ih =>
    intro w hw y hy
    rw [List.splitOnP_cons] at hw
    by_cases hpx : p x
    · rw [if_pos hpx] at hw
      rcases List.mem_cons.mp hw with h1 | h2
      · subst h1; simp at hy
      · obtain ⟨hyt, hpy⟩ := ih h2 hy
        exact ⟨List.mem_cons_of_mem _ hyt, hpy⟩
    · rw [if_neg hpx] at hw
      obtain ⟨hd, tl, heq⟩ := List.exists_cons_of_ne_nil (List.splitOnP_ne_nil p t)
      rw [heq] at hw
      simp only [List.modifyHead] at hw
      rcases List.mem_cons.mp hw with h1 | h2
      · subst h1
        rcases List.mem_cons.mp hy with h3 | h4
        · subst h3
          exact ⟨List.mem_cons_self _ _, Bool.of_not_eq_true hpx⟩
        · have hhd : hd ∈ t.splitOnP p := by rw [heq]; exact List.mem_cons_self _ _
          obtain ⟨hyt, hpy⟩ := ih hhd h4
          exact ⟨List.mem_cons_of_mem _ hyt, hpy⟩
      · have htl : w ∈ t.splitOnP p := by rw [heq]; exact List.mem_cons_of_mem _ h2
        obtain ⟨hyt, hpy⟩ := ih htl hy
        exact ⟨List.mem_cons_of_mem _ hyt, hpy⟩

/-- Every canonical word is nonempty, and each of its codepoints is a
normalization fixed point other than the space separator. -/
theorem canonWords_spec {l w : List Nat} (hw : w ∈ canonWords l) :
    w ≠ [] ∧ ∀ y ∈ w, normCp y = y ∧ y ≠ 32 := by
  obtain ⟨hmem, hne⟩ := List.mem_filter.mp hw
  constructor
  · intro h
    subst h
    simp at hne
  · intro y hy
    have hsp : w ∈ (l.map normCp).splitOnP (· == 32) := hmem
    obtain ⟨hym, hbeq⟩ := mem_of_mem_splitOnP hsp hy
    obtain ⟨z, _, hz⟩ := List.mem_map.mp hym
    constructor
    · rw [← hz, normCp_idem]
    · exact fun h => by simp [h] at hbeq

/-- Mapping a function that fixes the separator and every word over an
intercalation fixes the intercalation. -/
theorem intercalate_map_fix (f : Nat → Nat) (sep : List Nat) (hsep : sep.map f = sep) :
    ∀ ws : List (List Nat), (∀ w ∈ ws, w.map f = w) →
      (sep.intercalate ws).map f = sep.intercalate ws
  | [], _ => rfl
  | [w], h => by
    simp only [List.intercalate, List.intersperse_singleton, List.flatten,
      List.flatten_nil, List.append_nil]
    exact h w (List.mem_singleton.mpr rfl)
  | w :: w' :: t, h => by
    have ih := intercalate_map_fix f sep hsep (w' :: t)
      (fun x hx => h x (List.mem_cons_of_mem _ hx))
    simp only [List.intercalate, List.intersperse_cons_cons, List.flatten_cons] at ih ⊢
    rw [List.map_append, List.map_append, h w (List.mem_cons_self _ _), hsep, ih]

/-- A canonical key is made of normalization fixed points only. -/
theorem canonicalize_map_norm (l : List Nat) :
    (canonicalize l).map normCp = canonicalize l := by
  refine intercalate_map_fix normCp [32] rfl (canonWords l) ?_
  intro w hw
  exact mapFixOfMem (fun y hy => ((canonWords_spec hw).2 y hy).1)

/-- Splitting a canonical key back into words recovers the original
canonical word list. -/
theorem canonWords_canonicalize (l : List Nat) :
    canonWords (canonicalize l) = canonWords l := by
  have h1 : canonWords (canonicalize l) =
      (((canonicalize l).map normCp).splitOn 32).filter (fun w => !w.isEmpty) := rfl
  rw [h1, canonicalize_map_norm]
  by_cases h : canonWords l = []
  · rw [h]
    have hcl : canonicalize l = ([] : List Nat) := by
      unfold canonicalize
      rw [h]
      rfl
    rw [hcl]
    rfl
  · have hx : ∀ m ∈ canonWords l, 32 ∉ m := fun m hm hmem =>
      ((canonWords_spec hm).2 32 hmem).2 rfl
    have hsplit : List.splitOn 32 ([32].intercalate (canonWords l)) = canonWords l :=
      List.splitOn_intercalate _ 32 hx h
    have hcl : canonicalize l = [32].intercalate (canonWords l) := rfl
    rw [hcl, hsplit]
    refine List.filter_eq_self.mpr ?_
    intro m hm
    have hne := (canonWords_spec hm).1
    simp [List.isEmpty_iff, hne]

/-- Idempotence of the spec-modelled canonicalizer. -/
theorem canonicalize_idem (l : List Nat) :
    canonicalize (canonicalize l) = canonicalize l := by
  have h1 : canonicalize (canonicalize l) =
      [32].intercalate (canonWords (canonicalize l)) := rfl
  rw [h1, canonWords_canonicalize]
  rfl

/-- A usage the pass builds successfully always has no locator and an
empty issue list (app.py lines 351, 353). -/
theorem mkUsage_ok_shape {c : UsageCandidate} {u : Usage}
    (h : mkUsage c = Except.ok u) : u.def_locator = none ∧ u.issues = [] := by
  unfold mkUsage at h
  cases hp : parseClassification (c.classification.getD "Undefined") with
  | error e =>
    rw [hp] at h
    simp [Except.map] at h
  | ok cl =>
    rw [hp] at h
    simp only [Except.map, Except.ok.injEq] at h
    subst h
    exact ⟨rfl, rfl⟩

/-- Every usage in a successful usages pass has no locator and an empty
issue list. -/
theorem processUsages_ok_shape :
    ∀ {ud : List UsageCandidate} {us : List Usage},
      processUsages ud = Except.ok us →
      ∀ u ∈ us, u.def_locator = none ∧ u.issues = [] := by
  intro ud
  induction ud with
  | nil =>
    intro us h u hu
    simp only [processUsages] at h
    cases h
    simp at hu
  | cons c t ih =>
    intro us h u hu
    simp only [processUsages] at h
    cases hc : mkUsage c with
    | error e =>
      rw [hc] at h
      cases ht : processUsages t with
      | error e2 => rw [ht] at h; cases h
      | ok us' => rw [ht] at h; cases h
    | ok uc =>
      rw [hc] at h
      cases ht : processUsages t with
      | error e2 => rw [ht] at h; cases h
      | ok us' =>
        rw [ht] at h
        cases h
        rcases List.mem_cons.mp hu with h1 | h2
        · subst h1
          exact mkUsage_ok_shape hc
        · exact ih ht u h2

/-- Inversion of a successful analysis run into its four components. -/
theorem runAnalysis_ok {dd : List DefCandidate} {ud : List UsageCandidate}
    {sd : List SuggestionCandidate} {cd : List CrossRefCandidate}
    {r : AnalysisResults} (h : runAnalysis dd ud sd cd = Except.ok r) :
    r.definitions = processDefinitions dd ∧
      processUsages ud = Except.ok r.usages ∧
      r.suggestions = processSuggestions sd ∧
      r.cross_references = processCrossReferences cd := by
  unfold runAnalysis at h
  cases hu : processUsages ud with
  | error e =>
    rw [hu] at h
    cases h
  | ok us =>
    rw [hu] at h
    cases h
    exact ⟨rfl, rfl, rfl, rfl⟩

/-- Every processed definition has an empty issue list (app.py line 333). -/
theorem processDefinitions_issues {dd : List DefCandidate} {d : Definition}
    (hd : d ∈ processDefinitions dd) : d.issues = [] := by
  obtain ⟨c, _, rfl⟩ := List.mem_map.mp hd
  rfl

/-- Claim C1: the specification says a Usage is classified `Defined` iff
its canonical key has at least one Definition in the registry built from
the same run.  The code instead copies the classification verbatim from
the model's candidate record (app.py line 350): on the failing input the
run extracts zero definitions yet stores a usage classified `Defined`. -/
theorem claim1_defined_usage_without_registry_entry :
    ∃ r : AnalysisResults,
      runAnalysis [] [c1_usage_candidate] [] [] = Except.ok r ∧
        r.definitions = [] ∧
        r.usages.map Usage.classification = [Classification.DEFINED] := by
  refine ⟨⟨[], [⟨"Agreement", some "agreement", "This Agreement is binding",
    "para-5", Classification.DEFINED, none, false, []⟩], [], []⟩, rfl, rfl, rfl⟩

/-- Claim C2: the specification says a group of two or more Definitions
sharing a canonical key is tagged `DUPLICATE` on every member, and
additionally `CONFLICT` when the token-set Jaccard similarity of the
texts is below 0.85.  The code initializes every issue list to the empty
list and never populates it (app.py line 333): on the failing input two
definitions share the key `agreement` with token-disjoint texts
(similarity 0 < 0.85) and both issue lists stay empty. -/
theorem claim2_duplicate_group_untagged :
    ∃ r : AnalysisResults,
      runAnalysis [c2_def1, c2_def2] [] [] [] = Except.ok r ∧
        r.definitions.map Definition.term_canonical = ["agreement", "agreement"] ∧
        jaccardBelowThreshold "means this contract"
          "shall denote the 2024 master services framework" = true ∧
        r.definitions.map Definition.issues = [[], []] := by
  refine ⟨⟨[⟨"Agreement", "agreement", "means this contract", "para-1", false, []⟩,
    ⟨"AGREEMENT", "agreement", "shall denote the 2024 master services framework",
     "para-3", false, []⟩], [], [], []⟩, rfl, rfl, ?_, rfl⟩
  decide

/-- Claim C3: the specification says a `Defined` Usage whose paragraph
rank is strictly below the minimum definition rank of its key is tagged
`USE_BEFORE_DEFINE`.  The code never attaches any issue to a usage
(app.py line 353): on the failing input the key is defined only in
`para-5` (rank 5), the usage sits in `para-0` (rank 0) and is classified
`Defined`, yet its issue list stays empty. -/
theorem claim3_use_before_define_untagged :
    ∃ r : AnalysisResults,
      runAnalysis [c3_def] [c3_usage] [] [] = Except.ok r ∧
        r.definitions.map Definition.paragraph_id = ["para-5"] ∧
        r.usages.map Usage.paragraph_id = ["para-0"] ∧
        r.usages.map Usage.classification = [Classification.DEFINED] ∧
        r.usages.map Usage.issues = [[]] := by
  refine ⟨⟨[⟨"Agreement", "agreement", "means this contract", "para-5", false, []⟩],
    [⟨"Agreement", some "agreement", "The Agreement governs the parties", "para-0",
      Classification.DEFINED, none, false, []⟩], [], []⟩, rfl, rfl, rfl, rfl, rfl⟩

/-- Claim C4: the specification says a Definition is tagged `UNUSED_TERM`
iff zero Usages resolve to its canonical key with classification
`Defined`.  The code never attaches any issue to a definition (app.py
line 333): on the failing input the run has zero usages at all, yet the
definition's issue list stays empty. -/
theorem claim4_unused_definition_untagged :
    ∃ r : AnalysisResults,
      runAnalysis [c4_def] [] [] [] = Except.ok r ∧
        r.usages = [] ∧
        r.definitions.map Definition.issues = [[]] := by
  refine ⟨⟨[⟨"Affiliate", "affiliate", "means any entity controlled by a party",
    "para-2", false, []⟩], [], [], []⟩, rfl, rfl, rfl⟩

/-- Claim C5: for identical candidate lists the analysis pass stores
byte-identical results, and the summary counts are a function of the
stored results; the embedded pass is a pure function of the four
candidate lists (the code performs no further input-dependent effects
between receiving the candidates and storing the results). -/
theorem claim5_analysis_deterministic
    (dd dd2 : List DefCandidate) (ud ud2 : List UsageCandidate)
    (sd sd2 : List SuggestionCandidate) (cd cd2 : List CrossRefCandidate)
    (hdd : dd = dd2) (hud : ud = ud2) (hsd : sd = sd2) (hcd : cd = cd2) :
    runAnalysis dd ud sd cd = runAnalysis dd2 ud2 sd2 cd2 ∧
      (runAnalysis dd ud sd cd).map summarize =
        (runAnalysis dd2 ud2 sd2 cd2).map summarize := by
  subst hdd hud hsd hcd
  exact ⟨rfl, rfl⟩

/-- Witness for claim C5 at a concrete run. -/
theorem claim5_witness :
    runAnalysis [w_def_candidate] [w_usage_candidate] [] [] =
        runAnalysis [w_def_candidate] [w_usage_candidate] [] [] ∧
      (runAnalysis [w_def_candidate] [w_usage_candidate] [] []).map summarize =
        (runAnalysis [w_def_candidate] [w_usage_candidate] [] []).map summarize :=
  claim5_analysis_deterministic [w_def_candidate] [w_def_candidate]
    [w_usage_candidate] [w_usage_candidate] [] [] [] [] rfl rfl rfl rfl

/-- Claim C6: canonicalization is idempotent and a pure deterministic
function of the raw string.  Modelled from the spec (section 4.1), the
repository containing no canonicalizer; raw strings are codepoint
lists. -/
theorem claim6_canonicalize_idempotent (x : List Nat) :
    canonicalize (canonicalize x) = canonicalize x ∧
      ∀ y : List Nat, x = y → canonicalize x = canonicalize y :=
  ⟨canonicalize_idem x, fun _ h => h ▸ rfl⟩

/-- Witness for claim C6 on the codepoints of the raw string consisting
of a space, the word with codepoints of capital T-h-e, two spaces, the
word A-g-r-e-e-m-e-n-t and a trailing space; its canonical key is the
lower-cased single-spaced word pair. -/
theorem claim6_witness :
    canonicalize (canonicalize
        [32, 84, 104, 101, 32, 32, 65, 103, 114, 101, 101, 109, 101, 110, 116, 32]) =
      canonicalize
        [32, 84, 104, 101, 32, 32, 65, 103, 114, 101, 101, 109, 101, 110, 116, 32] ∧
    canonicalize
        [32, 84, 104, 101, 32, 32, 65, 103, 114, 101, 101, 109, 101, 110, 116, 32] =
      canonicalize
        [32, 84, 104, 101, 32, 32, 65, 103, 114, 101, 101, 109, 101, 110, 116, 32] ∧
    canonicalize
        [32, 84, 104, 101, 32, 32, 65, 103, 114, 101, 101, 109, 101, 110, 116, 32] =
      [116, 104, 101, 32, 97, 103, 114, 101, 101, 109, 101, 110, 116] :=
  ⟨(claim6_canonicalize_idempotent
      [32, 84, 104, 101, 32, 32, 65, 103, 114, 101, 101, 109, 101, 110, 116, 32]).1,
   (claim6_canonicalize_idempotent
      [32, 84, 104, 101, 32, 32, 65, 103, 114, 101, 101, 109, 101, 110, 116, 32]).2
      [32, 84, 104, 101, 32, 32, 65, 103, 114, 101, 101, 109, 101, 110, 116, 32] rfl,
   by decide⟩

/-- Claim C8: in every stored result, a usage's `def_locator`, if set,
points to a definition whose canonical key equals the usage's resolved
key.  The code sets `def_locator` to `None` unconditionally (app.py line
351), so the invariant holds (vacuously for the conditional part). -/
theorem claim8_def_locator_consistency
    (dd : List DefCandidate) (ud : List UsageCandidate)
    (sd : List SuggestionCandidate) (cd : List CrossRefCandidate)
    (r : AnalysisResults) (h : runAnalysis dd ud sd cd = Except.ok r) :
    ∀ u ∈ r.usages, u.def_locator = none ∧
      ∀ l : String, u.def_locator = some l →
        ∃ d ∈ r.definitions, some d.term_canonical = u.canonical := by
  intro u hu
  have hnone := (processUsages_ok_shape (runAnalysis_ok h).2.1 u hu).1
  refine ⟨hnone, ?_⟩
  intro l hl
  rw [hnone] at hl
  cases hl

/-- Witness for claim C8 at a concrete run with one definition and one
usage. -/
theorem claim8_witness :
    w_usage.def_locator = none ∧
      ∀ l : String, w_usage.def_locator = some l →
        ∃ d ∈ w_results.definitions, some d.term_canonical = w_usage.canonical :=
  claim8_def_locator_consistency [w_def_candidate] [w_usage_candidate] [] []
    w_results rfl w_usage (List.mem_cons_self _ _)

/-- Claim C9: every definition and every usage in the stored results ends
the pass with an empty issue list — the pass attaches no issue of any
kind (app.py lines 333 and 353 initialize `issues=[]`, and nothing ever
appends to either list). -/
theorem claim9_issue_lists_empty
    (dd : List DefCandidate) (ud : List UsageCandidate)
    (sd : List SuggestionCandidate) (cd : List CrossRefCandidate)
    (r : AnalysisResults) (h : runAnalysis dd ud sd cd = Except.ok r) :
    (∀ d ∈ r.definitions, d.issues = []) ∧ (∀ u ∈ r.usages, u.issues = []) := by
  obtain ⟨hdefs, hus, _, _⟩ := runAnalysis_ok h
  constructor
  · intro d hd
    rw [hdefs] at hd
    exact processDefinitions_issues hd
  · intro u hu
    exact (processUsages_ok_shape hus u hu).2

/-- Witness for claim C9 at a concrete run with one definition and one
usage. -/
theorem claim9_witness :
    (∀ d ∈ w_results.definitions, d.issues = []) ∧
      (∀ u ∈ w_results.usages, u.issues = []) :=
  claim9_issue_lists_empty [w_def_candidate] [w_usage_candidate] [] []
    w_results rfl

/-- Claim C10: each of the four extraction operations returns the empty
list whenever the underlying API call raises (the `except` handlers at
app.py lines 164, 178, 192, 205 swallow every exception), and a run fed
only such failures still completes with empty results rather than
aborting. -/
theorem claim10_api_failure_returns_empty
    (e : String) (text : String) (known_terms : List String) :
    extract_definitions text (Except.error e) = [] ∧
      find_usages text known_terms (Except.error e) = [] ∧
      find_suggestions text known_terms (Except.error e) = [] ∧
      find_cross_references text (Except.error e) = [] ∧
      runAnalysis (extract_definitions text (Except.error e))
          (find_usages text known_terms (Except.error e))
          (find_suggestions text known_terms (Except.error e))
          (find_cross_references text (Except.error e)) =
        Except.ok ⟨[], [], [], []⟩ :=
  ⟨rfl, rfl, rfl, rfl, rfl⟩

/-- Claim C7: the specification says a candidate missing a term or
definition text is dropped and reported as a `MalformedCandidate`
warning with its original index.  The code has no warning mechanism at
all and drops nothing: a record with every field missing is ingested as
a definition of empty strings (app.py lines 327-334). -/
theorem claim7_malformed_candidate_silently_defaulted :
    ∃ r : AnalysisResults,
      runAnalysis [c7_malformed] [] [] [] = Except.ok r ∧
        r.definitions = [⟨"", "", "", "", false, []⟩] :=
  ⟨⟨[⟨"", "", "", "", false, []⟩], [], [], []⟩, rfl, rfl⟩

end ContractApp
